import Mathlib

/-!
Verification of the `email_automation.py` script of the `lueur-quotidienne`
repository against its natural-language specification.

Text is modelled as `List Char` (Python `str` is a sequence of code points,
which `List Char` matches exactly: `len`, slicing, `in`, `replace`,
`startswith`, `strip` all operate on code points).  File contents and file
paths are both such character lists.  Fallible operations return `Except` or
`Option`.  The HTTP collaborators (Buttondown create-email and analytics
endpoints) are modelled as environment-supplied responses, since their
behaviour is external to the program.
-/

/-- Python strings are sequences of code points; we model them as `List Char`. -/
abbrev Str := List Char

/-- Convert a Lean string literal to the `List Char` model. -/
def strL (s : String) : Str := s.data

/-- The configuration dataclass `Config` of `email_automation.py` (lines 80-91).
Only the fields are modelled; `Config.load` reads JSON from disk and is part of
the environment. -/
structure Config where
  buttondown_api_key : Str
  newsletter_id : Option Str
  send_time : Str
  timezone : Str
  utm_source : Str
  utm_medium : Str
  utm_campaign : Str
  tip_link : Str
  reports_csv : Str
  site_url : Str

/-- A quote pool entry: a mapping with a `text` field (`quote["text"]`). -/
structure Quote where
  text : Str
deriving DecidableEq

/-- A product pool entry: mapping with `title`, `description`, `link` fields and
an optional `image` field (accessed by `product.get("image", "")`, line 151). -/
structure Product where
  title : Str
  description : Str
  link : Str
  image : Option Str
deriving DecidableEq

/-- `append_utm` (lines 125-133): appends the three UTM query parameters,
choosing `&` as delimiter when the URL already contains a `?` and `?`
otherwise. -/
def append_utm (url : Str) (config : Config) : Str :=
  let delimiter := if url.contains '?' then strL "&" else strL "?"
  let utm_params :=
    strL "utm_source=" ++ config.utm_source
      ++ strL "&utm_medium=" ++ config.utm_medium
      ++ strL "&utm_campaign=" ++ config.utm_campaign
  url ++ delimiter ++ utm_params

/-- The test `re.match(r"^https?://", path)` of lines 113 and 152: the string
starts with `http://` or `https://`. -/
def startsHttp (s : Str) : Bool :=
  (strL "http://").isPrefixOf s || (strL "https://").isPrefixOf s

/-- Image URL resolution of `generate_email_html` (lines 150-155):
`image_path = product.get("image", "")`; a non-empty path not starting with
`http://`/`https://` is joined to `config.site_url` with one `/` after
stripping the path's leading slashes (`image_path.lstrip('/')`); otherwise the
path is used as is. -/
def image_url (config : Config) (image : Option Str) : Str :=
  let image_path := image.getD []
  if image_path ≠ [] ∧ startsHttp image_path = false then
    config.site_url ++ '/' :: image_path.dropWhile (fun c => c == '/')
  else
    image_path

/-- Fuel-indexed model of Python `str.replace`: scan left to right; at each
position, if the (non-empty) pattern matches, emit the replacement and resume
scanning after the matched occurrence, otherwise keep one character.  One unit
of fuel is spent per position, and at least one character is consumed per
step, so fuel `s.length` always suffices (see `replaceAllFuel_of_le`). -/
def replaceAllFuel : Nat → Str → Str → Str → Str
  | 0, _, _, s => s
  | _ + 1, _, _, [] => []
  | n + 1, pat, rep, c :: cs =>
    if !pat.isEmpty && pat.isPrefixOf (c :: cs) then
      rep ++ replaceAllFuel n pat rep ((c :: cs).drop pat.length)
    else
      c :: replaceAllFuel n pat rep cs

/-- Python `s.replace(pat, rep)` for non-empty `pat` (every pattern used by the
script is a non-empty literal token). -/
def replaceAll (pat rep s : Str) : Str := replaceAllFuel s.length pat rep s

/-- The recipient-name argument `main` passes to `generate_email_html`
(line 284): the literal Buttondown provider-side personalisation token. -/
def subscriberName : Str := strL "\x7b\x7b subscriber.name \x7d\x7d"

/-- `generate_email_html` (lines 136-169).  The template file content and the
formatted current date (`datetime.now().strftime("%d/%m/%Y")`, line 168) are
passed in as values since they come from the environment.  The eight
placeholder substitutions are performed sequentially in the source order. -/
def generate_email_html (recipient_name : Str) (quote : Quote) (product : Product)
    (config : Config) (template : Str) (dateStr : Str) : Str :=
  let product_link := append_utm product.link config
  let iu := image_url config product.image
  let h1 := replaceAll (strL "\x7b\x7bNAME\x7d\x7d") recipient_name template
  let h2 := replaceAll (strL "\x7b\x7bQUOTE\x7d\x7d") quote.text h1
  let h3 := replaceAll (strL "\x7b\x7bPRODUCT_TITLE\x7d\x7d") product.title h2
  let h4 := replaceAll (strL "\x7b\x7bPRODUCT_DESC\x7d\x7d") product.description h3
  let h5 := replaceAll (strL "\x7b\x7bPRODUCT_IMG\x7d\x7d") iu h4
  let h6 := replaceAll (strL "\x7b\x7bPRODUCT_LINK\x7d\x7d") product_link h5
  let h7 := replaceAll (strL "\x7b\x7bTIP_LINK\x7d\x7d")
    (if config.tip_link ≠ [] then append_utm config.tip_link config else strL "#") h6
  let h8 := replaceAll (strL "\x7b\x7bDATE\x7d\x7d") dateStr h7
  h8

/-- The subject construction of `main` (line 291):
`f"✨ {quote['text'][:40]}…" if len(quote['text']) > 40 else f"✨ {quote['text']}"`. -/
def subjectFor (text : Str) : Str :=
  if text.length > 40 then strL "✨ " ++ text.take 40 ++ strL "…"
  else strL "✨ " ++ text

/-! ### Helper lemmas -/

/-- After `lstrip('/')` the remaining path never starts with `/`. -/
theorem dropWhile_slash_no_lead (l : Str) :
    ∀ rest, l.dropWhile (fun c => c == '/') ≠ '/' :: rest := by
  induction l with
  | nil => intro rest h; simp [List.dropWhile] at h
  | cons c t ih =>
    intro rest h
    rw [List.dropWhile] at h
    cases hc : (c == '/') with
    | true => rw [hc] at h; exact ih rest h
    | false =>
      rw [hc] at h
      have : c = '/' := by
        have := congrArg (fun x => x.headI) h
        simpa using this
      simp [this] at hc

/-! ### C4: append_utm -/

/-- Example configuration from the spec's end-to-end scenario
(`utm_source=abc, utm_medium=email, utm_campaign=x`). -/
def cfgUtmExample : Config :=
  { buttondown_api_key := strL "k"
    newsletter_id := none
    send_time := strL "08:00"
    timezone := strL "Europe/Paris"
    utm_source := strL "abc"
    utm_medium := strL "email"
    utm_campaign := strL "x"
    tip_link := strL ""
    reports_csv := strL "analytics_report.csv"
    site_url := strL "https://lueur-quotidienne.netlify.app" }

/-- C4: for every URL and configuration, `append_utm` returns the input URL
followed by a delimiter and `utm_source`, `utm_medium`, `utm_campaign` in that
order, where the delimiter is `?` exactly when the URL contains no `?` and `&`
otherwise (determinism is immediate since it is a pure function); moreover the
spec's end-to-end example URL instruments as stated. -/
theorem append_utm_spec :
    (∀ (url : Str) (config : Config),
      append_utm url config =
        url ++ (if url.contains '?' then strL "&" else strL "?")
          ++ strL "utm_source=" ++ config.utm_source
          ++ strL "&utm_medium=" ++ config.utm_medium
          ++ strL "&utm_campaign=" ++ config.utm_campaign) ∧
    append_utm (strL "https://shop.example/item?ref=1") cfgUtmExample =
      strL "https://shop.example/item?ref=1&utm_source=abc&utm_medium=email&utm_campaign=x" := by
  constructor
  · intro url config
    simp only [append_utm, List.append_assoc]
  · decide

/-! ### C5: subject truncation -/

/-- C5: the subject is the sparkle marker `✨ ` followed by the first 40
characters of the quote text plus the ellipsis `…` when the text is longer
than 40 characters, and by the full text with no ellipsis otherwise. -/
theorem subject_truncation (text : Str) :
    (text.length > 40 → subjectFor text = strL "✨ " ++ text.take 40 ++ strL "…") ∧
    (text.length ≤ 40 → subjectFor text = strL "✨ " ++ text) := by
  constructor
  · intro h; simp [subjectFor, h]
  · intro h; simp [subjectFor, Nat.not_lt.mpr h]

/-- Witness for C5 at a 45-character quote and a 3-character quote. -/
theorem subject_truncation_witness :
    subjectFor (strL "AAAAAAAAAAAAAAAAAAAAAAAAAAAAAAAAAAAAAAAABBBBB") =
      strL "✨ AAAAAAAAAAAAAAAAAAAAAAAAAAAAAAAAAAAAAAAA…" ∧
    subjectFor (strL "Lux") = strL "✨ Lux" := by
  constructor
  · exact (subject_truncation (strL "AAAAAAAAAAAAAAAAAAAAAAAAAAAAAAAAAAAAAAAABBBBB")).1
      (by decide) |>.trans (by decide)
  · exact (subject_truncation (strL "Lux")).2 (by decide) |>.trans (by decide)

/-! ### C6: image URL resolution -/

/-- C6: for a non-empty image path, a path not starting with `http://` or
`https://` resolves to `site_url ++ "/" ++ path-with-leading-slashes-stripped`
(and the stripped part never starts with `/`, so the inserted `/` never forms a
double slash with it), while a path starting with `http://`/`https://` passes
through unchanged. -/
theorem image_url_resolution (config : Config) (ip : Str) (hne : ip ≠ []) :
    (startsHttp ip = false →
      image_url config (some ip) =
        config.site_url ++ '/' :: ip.dropWhile (fun c => c == '/') ∧
      ∀ rest, ip.dropWhile (fun c => c == '/') ≠ '/' :: rest) ∧
    (startsHttp ip = true → image_url config (some ip) = ip) := by
  constructor
  · intro h
    refine ⟨?_, dropWhile_slash_no_lead ip⟩
    simp [image_url, hne, h]
  · intro h
    simp [image_url, h]

/-- Witness for C6 at the spec's example `images/cat.png` (relative) and at an
absolute URL. -/
theorem image_url_resolution_witness :
    strL "images/cat.png" ≠ ([] : Str) ∧
    image_url cfgUtmExample (some (strL "images/cat.png")) =
      strL "https://lueur-quotidienne.netlify.app/images/cat.png" ∧
    image_url cfgUtmExample (some (strL "https://cdn.example/cat.png")) =
      strL "https://cdn.example/cat.png" := by
  refine ⟨by decide, ?_, ?_⟩
  · exact ((image_url_resolution cfgUtmExample (strL "images/cat.png")
      (by decide)).1 (by decide)).1.trans (by decide)
  · exact (image_url_resolution cfgUtmExample (strL "https://cdn.example/cat.png")
      (by decide)).2 (by decide)

/-! ### C9: empty or absent image field -/

/-- C9 (implicit): when the product's image field is absent or the empty
string, the `PRODUCT_IMG` placeholder value is the empty string — it is not
resolved against `site_url` and in particular never ends in a bare slash. -/
theorem image_url_empty (config : Config) (img : Option Str)
    (h : img = none ∨ img = some []) :
    image_url config img = [] ∧ (image_url config img).getLast? ≠ some '/' := by
  have hu : image_url config img = [] := by
    rcases h with h | h <;> simp [image_url, h]
  exact ⟨hu, by simp [hu]⟩

/-- Witness for C9 at both an absent and an empty image field. -/
theorem image_url_empty_witness :
    image_url cfgUtmExample none = [] ∧
    image_url cfgUtmExample (some []) = [] := by
  exact ⟨(image_url_empty cfgUtmExample none (Or.inl rfl)).1,
    (image_url_empty cfgUtmExample (some []) (Or.inr rfl)).1⟩

/-! ### The run model: filesystem, time, scheduling and analytics -/

/-- The ASCII whitespace stripped by Python `str.strip()` (the script's
identifiers are ASCII, so the additional Unicode space code points Python also
strips never arise for it). -/
def isPySpace (c : Char) : Bool :=
  c = ' ' || c = '\t' || c = '\n' || c = '\r' || c = '\x0b' || c = '\x0c'

/-- Python `s.strip()`: remove leading and trailing whitespace. -/
def pyStrip (s : Str) : Str :=
  ((s.dropWhile isPySpace).reverse.dropWhile isPySpace).reverse

/-- Accumulator for `splitOnColon`. -/
def splitOnColonAux : Str → Str → List Str
  | [], acc => [acc.reverse]
  | c :: cs, acc =>
    if c = ':' then acc.reverse :: splitOnColonAux cs [] else splitOnColonAux cs (c :: acc)

/-- Python `s.split(":")`. -/
def splitOnColon (s : Str) : List Str := splitOnColonAux s []

/-- Python `int(s)` restricted to the canonical non-empty all-digit forms a
valid `HH:MM` send time consists of. -/
def pyIntNat (s : Str) : Option Nat :=
  if s ≠ [] ∧ s.all Char.isDigit then
    some (s.foldl (fun a c => a * 10 + (c.toNat - 48)) 0)
  else none

/-- Line 265: `send_hour, send_minute = map(int, config.send_time.split(":"))`
(fails — `ValueError` — unless the split yields exactly two integer parts). -/
def parseSendTime (s : Str) : Option (Nat × Nat) :=
  match splitOnColon s with
  | [hh, mm] =>
    match pyIntNat hh, pyIntNat mm with
    | some h, some m => some (h, m)
    | _, _ => none
  | _ => none

/-- A timezone-aware local datetime: an abstract day number plus wall-clock
fields, as manipulated by lines 264-267 (`+ timedelta(days=1)` adds one to the
day, `.replace(...)` sets the wall-clock fields). -/
structure LocalDT where
  day : Int
  hour : Nat
  minute : Nat
  second : Nat
  micro : Nat
deriving DecidableEq

/-- Microseconds represented by the wall-clock reading. -/
def wallMicros (d : LocalDT) : Int :=
  (((d.day * 24 + (d.hour : Int)) * 60 + (d.minute : Int)) * 60 + (d.second : Int)) * 1000000
    + (d.micro : Int)

/-- `publish_datetime.astimezone(UTC)` (line 195): the absolute UTC instant of
a local wall-clock reading is the reading minus the timezone's UTC offset (in
minutes) at that reading. -/
def toUtcMicros (tzOffset : LocalDT → Int) (d : LocalDT) : Int :=
  wallMicros d - tzOffset d * 60000000

/-- Lines 266-267: `publish_dt_local = now_local + timedelta(days=1)` then
`.replace(hour=send_hour, minute=send_minute, second=0, microsecond=0)`. -/
def publish_dt_local (now : LocalDT) (send_hour send_minute : Nat) : LocalDT :=
  ⟨now.day + 1, send_hour, send_minute, 0, 0⟩

/-- Lines 264-267 as a whole: parse the configured send time and build the
local publish instant for tomorrow; `None` models the `ValueError` of a
malformed send time or out-of-range `replace` arguments. -/
def computePublish (now : LocalDT) (send_time : Str) : Option LocalDT :=
  match parseSendTime send_time with
  | some (h, m) => if h ≤ 23 ∧ m ≤ 59 then some (publish_dt_local now h m) else none
  | none => none

/-- An association-list file store for the identifier files, keyed by resolved
path; `fsWrite` models `open(path, "w")` + `write` (create or overwrite). -/
def fsWrite : List (Str × Str) → Str → Str → List (Str × Str)
  | [], p, v => [(p, v)]
  | (q, w) :: t, p, v => if q = p then (p, v) :: t else (q, w) :: fsWrite t p v

/-- `os.path.exists` + `open(path).read()` over the store. -/
def fsRead : List (Str × Str) → Str → Option Str
  | [], _ => none
  | (q, w) :: t, p => if q = p then some w else fsRead t p

/-- POSIX resolution of a possibly relative path against the working
directory. -/
def resolvePath (cwd p : Str) : Str :=
  if p.head? = some '/' then p else cwd ++ '/' :: p

/-- `os.path.join` for the directory/filename shapes the script uses. -/
def joinPath (d f : Str) : Str :=
  if d = [] then f else if d.getLast? = some '/' then d ++ f else d ++ '/' :: f

/-- The analytics counters after the `.get(key, 0)` defaulting of
`append_report_row` (lines 239-250). -/
structure Analytics where
  recipients : Nat
  deliveries : Nat
  opens : Nat
  clicks : Nat
  temporary_failures : Nat
  permanent_failures : Nat
  unsubscriptions : Nat
  complaints : Nat
deriving DecidableEq

/-- One data row appended to the CSV report.  The date column holds the day
number of `now_local - timedelta(days=1)` (line 310); its `strftime`
rendering is not modelled. -/
structure Row where
  dateDay : Int
  subject : Str
  metrics : Analytics
deriving DecidableEq

/-- The persisted state a run can change: the identifier files and the CSV
report (modelled as the list of appended data rows plus whether a header row
was written because the file did not yet exist). -/
structure St where
  idFiles : List (Str × Str)
  csvAppended : List Row
  csvHeaderWritten : Bool
deriving DecidableEq

/-- Where a failing run raised. -/
inductive Stage where
  | badSendTime
  | quotesLoad
  | productsLoad
  | emptyQuotePool
  | emptyProductPool
  | templateMissing
  | scheduleFail
  | analyticsFail
  | csvFail
deriving DecidableEq

/-- Result of a run of `main`: normal completion (with whether an analytics
row was reported and the new email id) or an uncaught exception at some stage,
in either case together with the persisted state at that point. -/
inductive Outcome where
  | ok (st : St) (reported : Bool) (emailId : Str)
  | failed (stage : Stage) (st : St)
deriving DecidableEq

/-- The environment of one run: configuration, clock, directories, the initial
identifier-file store, the content pool files (`none` = file absent,
`some (.error ())` = present but failing to fetch/parse), the template file,
the provider responses, the CSV file's health, and the random choices. -/
structure Env where
  cfg : Config
  cwd : Str
  scriptDir : Str
  now : LocalDT
  tzOffset : LocalDT → Int
  todayStr : Str
  quotesFile : Option (Except Unit (List Quote))
  productsFile : Option (Except Unit (List Product))
  templateFile : Option Str
  idFiles : List (Str × Str)
  schedResp : Except Unit Str
  analyticsResp : Str → Except Unit Analytics
  csvOk : Bool
  csvExists : Bool
  quoteIdx : Nat
  prodIdx : Nat

/-- The two hardcoded fallback quotes of lines 270-273. -/
def fallbackQuotes : List Quote :=
  [⟨strL "La lumière que tu cherches à l’extérieur brille déjà en toi."⟩,
   ⟨strL "Chaque jour est une nouvelle chance de semer des graines de bonheur."⟩]

/-- Line 270-273: the quote pool is loaded from `quotes.json` when that file
exists, else it is the two hardcoded quotes; a present-but-unparsable file
still raises. -/
def loadQuotes (env : Env) : Except Unit (List Quote) :=
  match env.quotesFile with
  | none => .ok fallbackQuotes
  | some r => r

/-- Line 274: the product pool is always loaded from `products.json`; a
missing file or a fetch/parse error raises. -/
def loadProducts (env : Env) : Except Unit (List Product) :=
  match env.productsFile with
  | none => .error ()
  | some r => r

/-- `choose_random_item` (lines 121-122): `random.choice` picks one element of
a non-empty list (the pick is supplied by the environment as an index) and
raises `IndexError` on an empty list. -/
def choose_random_item (items : List α) (idx : Nat) : Option α :=
  items[idx % items.length]?

/-- The path `schedule_email` writes: its default parameter
`".last_email_id"`, a relative path, resolved against the process working
directory. -/
def schedResolved (env : Env) : Str := resolvePath env.cwd (strL ".last_email_id")

/-- The path `main` reads and finally overwrites (line 303):
`os.path.join(os.path.dirname(__file__), ".last_email_id")`, resolved against
the working directory. -/
def mainResolved (env : Env) : Str :=
  resolvePath env.cwd (joinPath env.scriptDir (strL ".last_email_id"))

/-- `schedule_email` (lines 172-207): submit the create-email request (the
provider's response is environment-supplied; subject, body and publish instant
are carried in the request without affecting control flow), raise on a
non-success response, and on success immediately persist `str(email_id)` to
`previous_email_id_path` and return the id. -/
def schedule_email (subject body : Str) (publishUtc : Int)
    (resp : Except Unit Str) (files : List (Str × Str)) (path : Str) :
    Except Unit (Str × List (Str × Str)) :=
  match subject, body, publishUtc, resp with
  | _, _, _, .error e => .error e
  | _, _, _, .ok email_id => .ok (email_id, fsWrite files path email_id)

/-- Lines 302-316 of `main`: if the previous-identifier file exists, read it,
strip it, and when the result is non-empty and differs from `str(email_id)`
fetch analytics for it and append one CSV row (header first if the report file
does not yet exist); finally overwrite the file with the current id. -/
def analyticsPhase (env : Env) (st1 : St) (subject : Str) (email_id : Str) : Outcome :=
  match fsRead st1.idFiles (mainResolved env) with
  | none =>
    .ok { st1 with idFiles := fsWrite st1.idFiles (mainResolved env) email_id } false email_id
  | some content =>
    if pyStrip content ≠ [] ∧ pyStrip content ≠ email_id then
      match env.analyticsResp (pyStrip content) with
      | .error _ => .failed .analyticsFail st1
      | .ok analytics =>
        if env.csvOk then
          .ok
            ⟨fsWrite st1.idFiles (mainResolved env) email_id,
              st1.csvAppended ++ [⟨env.now.day - 1, subject, analytics⟩],
              !env.csvExists⟩
            true email_id
        else .failed .csvFail st1
    else
      .ok { st1 with idFiles := fsWrite st1.idFiles (mainResolved env) email_id } false email_id

/-- `main` (lines 253-316) with the configuration already loaded: compute the
publish instant, load the pools (quote fallback included), pick the content,
require the template, render, build the subject, schedule (which persists the
new id to `schedule_email`'s own path), then run the analytics phase. -/
def mainModel (env : Env) : Outcome :=
  match computePublish env.now env.cfg.send_time with
  | none => .failed .badSendTime ⟨env.idFiles, [], false⟩
  | some publish =>
    match loadQuotes env with
    | .error _ => .failed .quotesLoad ⟨env.idFiles, [], false⟩
    | .ok quotes_data =>
      match loadProducts env with
      | .error _ => .failed .productsLoad ⟨env.idFiles, [], false⟩
      | .ok products_data =>
        match choose_random_item quotes_data env.quoteIdx with
        | none => .failed .emptyQuotePool ⟨env.idFiles, [], false⟩
        | some quote =>
          match choose_random_item products_data env.prodIdx with
          | none => .failed .emptyProductPool ⟨env.idFiles, [], false⟩
          | some product =>
            match env.templateFile with
            | none => .failed .templateMissing ⟨env.idFiles, [], false⟩
            | some template =>
              match schedule_email (subjectFor quote.text)
                  (generate_email_html subscriberName quote product env.cfg template env.todayStr)
                  (toUtcMicros env.tzOffset publish)
                  env.schedResp env.idFiles (schedResolved env) with
              | .error _ => .failed .scheduleFail ⟨env.idFiles, [], false⟩
              | .ok (email_id, files1) =>
                analyticsPhase env ⟨files1, [], false⟩ (subjectFor quote.text) email_id

/-- The stage of a failed outcome. -/
def stageOf : Outcome → Option Stage
  | .failed s _ => some s
  | _ => none

/-- The identifier-file store of an outcome. -/
def filesOf : Outcome → List (Str × Str)
  | .ok st _ _ => st.idFiles
  | .failed _ st => st.idFiles

/-- Whether a normally completed run reported an analytics row. -/
def reportedOf : Outcome → Option Bool
  | .ok _ r _ => some r
  | _ => none

/-- The CSV data rows a run appended. -/
def rowsOf : Outcome → List Row
  | .ok st _ _ => st.csvAppended
  | .failed _ st => st.csvAppended

/-! ### File-store lemmas -/

/-- Reading back the path just written yields the written content. -/
theorem fsRead_fsWrite_self (f : List (Str × Str)) (p v : Str) :
    fsRead (fsWrite f p v) p = some v := by
  induction f with
  | nil => simp [fsWrite, fsRead]
  | cons e t ih =>
    obtain ⟨q, w⟩ := e
    by_cases h : q = p <;> simp [fsWrite, fsRead, h, ih]

/-- Writing one path leaves every other path's content unchanged. -/
theorem fsRead_fsWrite_ne (f : List (Str × Str)) (p v p' : Str) (h : p' ≠ p) :
    fsRead (fsWrite f p v) p' = fsRead f p' := by
  have h' : ∀ q : Str, q = p → ¬ q = p' := fun q hq hq' => h (hq' ▸ hq)
  induction f with
  | nil => simp [fsWrite, fsRead, h' p rfl]
  | cons e t ih =>
    obtain ⟨q, w⟩ := e
    by_cases hq : q = p
    · subst hq
      simp [fsWrite, fsRead, h' q rfl]
    · simp [fsWrite, fsRead, hq, ih]

/-- Inversion for a successful `schedule_email`: the provider response was the
returned id and the returned store is the input store with the id written at
the identifier path. -/
theorem schedule_email_ok (subject body : Str) (utc : Int) (resp : Except Unit Str)
    (files : List (Str × Str)) (path id : Str) (files' : List (Str × Str))
    (h : schedule_email subject body utc resp files path = .ok (id, files')) :
    resp = .ok id ∧ files' = fsWrite files path id := by
  cases resp with
  | error e => simp [schedule_email] at h
  | ok i =>
    simp only [schedule_email, Except.ok.injEq, Prod.mk.injEq] at h
    obtain ⟨h1, h2⟩ := h
    subst h1
    exact ⟨rfl, h2.symm⟩

/-! ### C8: publish instant -/

/-- C8: the publish instant is local `now + 1 day` with hour and minute
replaced by the parsed send time and second/microsecond zeroed, and the UTC
instant submitted to the provider is that wall-clock reading minus the
timezone's offset at it; the spec's example (now 23:00 on day 0, send time
`08:00`) yields day 1 at 08:00 local. -/
theorem publish_time_spec :
    (∀ (tz : LocalDT → Int) (now : LocalDT) (st : Str) (h m : Nat),
      parseSendTime st = some (h, m) → h ≤ 23 → m ≤ 59 →
      computePublish now st = some ⟨now.day + 1, h, m, 0, 0⟩ ∧
      (computePublish now st).map (toUtcMicros tz) =
        some (wallMicros ⟨now.day + 1, h, m, 0, 0⟩
          - tz ⟨now.day + 1, h, m, 0, 0⟩ * 60000000)) ∧
    computePublish ⟨0, 23, 0, 0, 0⟩ (strL "08:00") = some ⟨1, 8, 0, 0, 0⟩ := by
  constructor
  · intro tz now st h m hp hh hm
    have hc : computePublish now st = some ⟨now.day + 1, h, m, 0, 0⟩ := by
      simp [computePublish, hp, hh, hm, publish_dt_local]
    exact ⟨hc, by simp [hc, toUtcMicros]⟩
  · decide

/-- Witness for C8 at a concrete timezone offset and clock. -/
theorem publish_time_spec_witness :
    computePublish ⟨5, 23, 59, 7, 11⟩ (strL "08:00") = some ⟨6, 8, 0, 0, 0⟩ ∧
    (computePublish ⟨5, 23, 59, 7, 11⟩ (strL "08:00")).map (toUtcMicros fun _ => 60) =
      some (wallMicros ⟨6, 8, 0, 0, 0⟩ - 60 * 60000000) := by
  have := publish_time_spec.1 (fun _ => 60) ⟨5, 23, 59, 7, 11⟩ (strL "08:00") 8 0
    (by decide) (by decide) (by decide)
  exact ⟨this.1, this.2⟩

/-! ### C1 and C10: what the identifier files hold on the failure paths -/

/-- A failure inside the analytics phase happens at the analytics fetch or the
CSV append, and leaves the state exactly as it was when the phase started. -/
theorem analyticsPhase_failed (env : Env) (st1 : St) (subject email_id : Str)
    (stage : Stage) (st : St)
    (h : analyticsPhase env st1 subject email_id = .failed stage st) :
    st = st1 ∧ (stage = .analyticsFail ∨ stage = .csvFail) := by
  unfold analyticsPhase at h
  split at h
  · simp at h
  · split at h
    · split at h
      · simp only [Outcome.failed.injEq] at h
        exact ⟨h.2.symm, Or.inl h.1.symm⟩
      · split at h
        · simp at h
        · simp only [Outcome.failed.injEq] at h
          exact ⟨h.2.symm, Or.inr h.1.symm⟩
    · simp at h

/-- A run that fails at the analytics fetch or CSV append got a successful
scheduling response, and the state at failure is the initial store with the
new id written at `schedule_email`'s path and nothing appended to the CSV. -/
theorem mainModel_failed_late (env : Env) (stage : Stage) (st : St)
    (h : mainModel env = .failed stage st)
    (hs : stage = .analyticsFail ∨ stage = .csvFail) :
    ∃ id, env.schedResp = .ok id ∧
      st = ⟨fsWrite env.idFiles (schedResolved env) id, [], false⟩ := by
  have hbad : ∀ s : Stage, s = .analyticsFail ∨ s = .csvFail →
      s ≠ .badSendTime ∧ s ≠ .quotesLoad ∧ s ≠ .productsLoad ∧ s ≠ .emptyQuotePool ∧
      s ≠ .emptyProductPool ∧ s ≠ .templateMissing ∧ s ≠ .scheduleFail := by
    rintro s (rfl | rfl) <;> refine ⟨?_, ?_, ?_, ?_, ?_, ?_, ?_⟩ <;> decide
  unfold mainModel at h
  split at h
  · exact absurd (Outcome.failed.inj h).1.symm (hbad stage hs).1
  · split at h
    · exact absurd (Outcome.failed.inj h).1.symm (hbad stage hs).2.1
    · split at h
      · exact absurd (Outcome.failed.inj h).1.symm (hbad stage hs).2.2.1
      · split at h
        · exact absurd (Outcome.failed.inj h).1.symm (hbad stage hs).2.2.2.1
        · split at h
          · exact absurd (Outcome.failed.inj h).1.symm (hbad stage hs).2.2.2.2.1
          · split at h
            · exact absurd (Outcome.failed.inj h).1.symm (hbad stage hs).2.2.2.2.2.1
            · rename_i heqsched
              split at h
              · exact absurd (Outcome.failed.inj h).1.symm (hbad stage hs).2.2.2.2.2.2
              · rename_i email_id files1 heq
                obtain ⟨hresp, hfiles⟩ :=
                  schedule_email_ok _ _ _ _ _ _ _ _ heq
                obtain ⟨hst, _⟩ := analyticsPhase_failed _ _ _ _ _ _ h
                exact ⟨email_id, hresp, by rw [hst, hfiles]⟩

/-- C1 (amended): when the scheduling call succeeds but the analytics fetch or
the CSV append fails, the identifier file at the path `main` reads
(`script-dir/.last_email_id`) is unchanged and no CSV row was appended — but
the newly assigned identifier has already been persisted by `schedule_email`
to its own path (CWD-relative `.last_email_id`) as soon as scheduling
succeeded, so the claim's parenthetical "the identifier is never written
before the run completes" fails, and when the two paths denote the same file
that file holds the new identifier at the moment of failure. -/
theorem c1_amended (env : Env) (stage : Stage) (st : St)
    (hrun : mainModel env = .failed stage st)
    (hst : stage = .analyticsFail ∨ stage = .csvFail) :
    (mainResolved env ≠ schedResolved env →
      fsRead st.idFiles (mainResolved env) = fsRead env.idFiles (mainResolved env)) ∧
    (∃ id, env.schedResp = .ok id ∧
      fsRead st.idFiles (schedResolved env) = some id) ∧
    st.csvAppended = [] := by
  obtain ⟨id, hresp, hstval⟩ := mainModel_failed_late env stage st hrun hst
  subst hstval
  refine ⟨fun hne => ?_, ⟨id, hresp, ?_⟩, rfl⟩
  · exact fsRead_fsWrite_ne env.idFiles (schedResolved env) id (mainResolved env) hne
  · exact fsRead_fsWrite_self env.idFiles (schedResolved env) id

/-- Fixed analytics counters used in the concrete runs below. -/
def analyticsExample : Analytics := ⟨100, 98, 40, 10, 1, 1, 0, 0⟩

/-- A concrete run for C1: working directory `/w`, script directory `/app`
(so `schedule_email` and `main` use different identifier files), a previous
identifier `prev` persisted in both, a successful scheduling response `NEW`,
and an analytics endpoint that fails. -/
def envC1 : Env :=
  { cfg := cfgUtmExample
    cwd := strL "/w"
    scriptDir := strL "/app"
    now := ⟨100, 9, 30, 0, 0⟩
    tzOffset := fun _ => 120
    todayStr := strL "10/04/2024"
    quotesFile := some (.ok [⟨strL "Bonjour"⟩])
    productsFile := some (.ok [⟨strL "Bougie", strL "Une bougie.", strL "https://shop.example/b", none⟩])
    templateFile := some []
    idFiles := [(strL "/app/.last_email_id", strL "prev"), (strL "/w/.last_email_id", strL "prev")]
    schedResp := .ok (strL "NEW")
    analyticsResp := fun _ => .error ()
    csvOk := true
    csvExists := true
    quoteIdx := 0
    prodIdx := 0 }

/-- C1 (counterexample to the claim as stated): in `envC1` scheduling succeeds
and the analytics fetch then fails, yet a persisted `last email id` file (the
one `schedule_email` writes) changed from `prev` to the newly assigned `NEW`
before the run completed. -/
theorem c1_counterexample :
    stageOf (mainModel envC1) = some .analyticsFail ∧
    fsRead envC1.idFiles (schedResolved envC1) = some (strL "prev") ∧
    fsRead (filesOf (mainModel envC1)) (schedResolved envC1) = some (strL "NEW") := by
  refine ⟨by decide, by decide, by decide⟩

/-- Witness for C1's amended theorem at the concrete run `envC1`. -/
theorem c1_amended_witness :
    (mainResolved envC1 ≠ schedResolved envC1 →
      fsRead ((⟨fsWrite envC1.idFiles (schedResolved envC1) (strL "NEW"), [], false⟩ : St)).idFiles
          (mainResolved envC1) =
        fsRead envC1.idFiles (mainResolved envC1)) ∧
    (∃ id, envC1.schedResp = .ok id ∧
      fsRead ((⟨fsWrite envC1.idFiles (schedResolved envC1) (strL "NEW"), [], false⟩ : St)).idFiles
          (schedResolved envC1) = some id) ∧
    ((⟨fsWrite envC1.idFiles (schedResolved envC1) (strL "NEW"), [], false⟩ : St)).csvAppended = [] := by
  exact c1_amended envC1 .analyticsFail
    ⟨fsWrite envC1.idFiles (schedResolved envC1) (strL "NEW"), [], false⟩
    (by decide) (Or.inl rfl)

/-- When the previous-identifier file read back yields exactly the current
(whitespace-trimmed) identifier, the difference guard is false and the
analytics phase only performs the final overwrite. -/
theorem analyticsPhase_skip (env : Env) (st1 : St) (subject email_id : Str)
    (hread : fsRead st1.idFiles (mainResolved env) = some email_id)
    (htrim : pyStrip email_id = email_id) :
    analyticsPhase env st1 subject email_id =
      .ok { st1 with idFiles := fsWrite st1.idFiles (mainResolved env) email_id }
        false email_id := by
  have hneg : ¬ (pyStrip email_id ≠ [] ∧ pyStrip email_id ≠ email_id) := by
    rw [htrim]; simp
  simp only [analyticsPhase, hread, if_neg hneg]

/-- When `main`'s identifier path and `schedule_email`'s identifier path
resolve to the same file and the provider id is whitespace-trimmed, a run
never fails in the analytics phase and never reports a row. -/
theorem mainModel_same_path (env : Env) (id : Str)
    (hresp : env.schedResp = .ok id) (htrim : pyStrip id = id)
    (hpath : mainResolved env = schedResolved env) :
    (∀ st, mainModel env ≠ .failed .analyticsFail st) ∧
    (∀ st, mainModel env ≠ .failed .csvFail st) ∧
    (∀ st r i, mainModel env = .ok st r i → r = false ∧ st.csvAppended = []) := by
  unfold mainModel
  split
  · refine ⟨fun st h => ?_, fun st h => ?_, fun st r i h => ?_⟩ <;> simp at h
  · split
    · refine ⟨fun st h => ?_, fun st h => ?_, fun st r i h => ?_⟩ <;> simp at h
    · split
      · refine ⟨fun st h => ?_, fun st h => ?_, fun st r i h => ?_⟩ <;> simp at h
      · split
        · refine ⟨fun st h => ?_, fun st h => ?_, fun st r i h => ?_⟩ <;> simp at h
        · split
          · refine ⟨fun st h => ?_, fun st h => ?_, fun st r i h => ?_⟩ <;> simp at h
          · split
            · refine ⟨fun st h => ?_, fun st h => ?_, fun st r i h => ?_⟩ <;> simp at h
            · split
              · refine ⟨fun st h => ?_, fun st h => ?_, fun st r i h => ?_⟩ <;> simp at h
              · rename_i email_id files1 heq
                obtain ⟨hresp', hfiles⟩ := schedule_email_ok _ _ _ _ _ _ _ _ heq
                rw [hresp] at hresp'
                obtain rfl : id = email_id := by simpa using Except.ok.inj hresp'
                have hread : fsRead files1 (mainResolved env) = some id := by
                  rw [hfiles, hpath]
                  exact fsRead_fsWrite_self env.idFiles (schedResolved env) id
                rw [analyticsPhase_skip env ⟨files1, [], false⟩ _ id hread htrim]
                refine ⟨fun st h => ?_, fun st h => ?_, fun st r i h => ?_⟩
                · simp at h
                · simp at h
                · obtain ⟨_, h2, _⟩ := Outcome.ok.inj h
                  exact ⟨h2.symm, by
                    obtain ⟨h1, _, _⟩ := Outcome.ok.inj h
                    rw [← h1]⟩

/-- C10 (amended): (1) whenever `schedule_email` returns successfully, the
file at its identifier path already contains exactly the newly assigned
identifier, before the analytics step runs; (2) consequently, whenever that
path denotes the same file `main` later reads and the identifier is
whitespace-trimmed (`strip` leaves it unchanged), the difference guard is
false and the analytics fetch and CSV append never execute. -/
theorem c10_amended :
    (∀ (subject body : Str) (utc : Int) (resp : Except Unit Str)
        (files : List (Str × Str)) (path id : Str) (files' : List (Str × Str)),
      schedule_email subject body utc resp files path = .ok (id, files') →
      fsRead files' path = some id) ∧
    (∀ (env : Env) (id : Str),
      env.schedResp = .ok id → pyStrip id = id →
      mainResolved env = schedResolved env →
      (∀ st, mainModel env ≠ .failed .analyticsFail st) ∧
      (∀ st, mainModel env ≠ .failed .csvFail st) ∧
      (∀ st r i, mainModel env = .ok st r i → r = false ∧ st.csvAppended = [])) := by
  constructor
  · intro subject body utc resp files path id files' h
    obtain ⟨_, hfiles⟩ := schedule_email_ok subject body utc resp files path id files' h
    rw [hfiles]
    exact fsRead_fsWrite_self files path id
  · intro env id hresp htrim hpath
    exact mainModel_same_path env id hresp htrim hpath

/-- A concrete run for C10's counterexample: working directory and script
directory are both `/app`, so the two identifier paths denote the same file;
the provider assigns the identifier `" x"`, which is not whitespace-trimmed. -/
def envC10 : Env :=
  { cfg := cfgUtmExample
    cwd := strL "/app"
    scriptDir := strL "/app"
    now := ⟨100, 9, 30, 0, 0⟩
    tzOffset := fun _ => 120
    todayStr := strL "10/04/2024"
    quotesFile := some (.ok [⟨strL "Bonjour"⟩])
    productsFile := some (.ok [⟨strL "Bougie", strL "Une bougie.", strL "https://shop.example/b", none⟩])
    templateFile := some []
    idFiles := [(strL "/app/.last_email_id", strL "old")]
    schedResp := .ok (strL " x")
    analyticsResp := fun s => if s = strL "x" then .ok analyticsExample else .error ()
    csvOk := true
    csvExists := true
    quoteIdx := 0
    prodIdx := 0 }

/-- C10 (counterexample to the claim as stated): with the same file for both
paths but a provider identifier `" x"` carrying whitespace, the value read
back and stripped (`"x"`) differs from `str(email_id)` (`" x"`), so the guard
is true and the analytics fetch and CSV append do execute. -/
theorem c10_counterexample :
    mainResolved envC10 = schedResolved envC10 ∧
    envC10.schedResp = .ok (strL " x") ∧
    reportedOf (mainModel envC10) = some true ∧
    rowsOf (mainModel envC10) ≠ [] := by
  exact ⟨by decide, rfl, by decide, by decide⟩

/-- A concrete same-path run with a trimmed identifier for C10's witness. -/
def envC10w : Env :=
  { envC10 with schedResp := .ok (strL "NEW") }

/-- Witness for C10's amended theorem: part (1) at a concrete store and part
(2) at the same-path run `envC10w` with the trimmed identifier `NEW`. -/
theorem c10_amended_witness :
    fsRead (fsWrite [] (strL "p") (strL "I")) (strL "p") = some (strL "I") ∧
    ((∀ st, mainModel envC10w ≠ .failed .analyticsFail st) ∧
      (∀ st, mainModel envC10w ≠ .failed .csvFail st) ∧
      (∀ st r i, mainModel envC10w = .ok st r i → r = false ∧ st.csvAppended = [])) := by
  constructor
  · exact c10_amended.1 (strL "s") [] 0 (.ok (strL "I")) [] (strL "p") (strL "I")
      (fsWrite [] (strL "p") (strL "I")) rfl
  · exact c10_amended.2 envC10w (strL "NEW") rfl (by decide) (by decide)

/-- C2 (amended): in a run that reaches the analytics block, when the file at
the path `main` reads exists (after `schedule_email`'s own write) and its
whitespace-stripped content is non-empty and differs from `str(email_id)`,
analytics are fetched for that stripped prior identifier and exactly one row
is appended to the CSV (with a header first when the report file did not yet
exist); the metrics in the row are those returned for the prior identifier,
not the current run's. -/
theorem c2_amended (env : Env) (pub : LocalDT) (qs : List Quote) (ps : List Product)
    (q : Quote) (p : Product) (tpl : Str) (id content : Str) (a : Analytics)
    (hpub : computePublish env.now env.cfg.send_time = some pub)
    (hq : loadQuotes env = .ok qs)
    (hp : loadProducts env = .ok ps)
    (hcq : choose_random_item qs env.quoteIdx = some q)
    (hcp : choose_random_item ps env.prodIdx = some p)
    (htpl : env.templateFile = some tpl)
    (hresp : env.schedResp = .ok id)
    (hread : fsRead (fsWrite env.idFiles (schedResolved env) id) (mainResolved env)
      = some content)
    (hne : pyStrip content ≠ [])
    (hdiff : pyStrip content ≠ id)
    (hana : env.analyticsResp (pyStrip content) = .ok a)
    (hcsv : env.csvOk = true) :
    mainModel env = .ok
      ⟨fsWrite (fsWrite env.idFiles (schedResolved env) id) (mainResolved env) id,
        [⟨env.now.day - 1, subjectFor q.text, a⟩], !env.csvExists⟩
      true id := by
  simp only [mainModel, hpub, hq, hp, hcq, hcp, htpl, schedule_email, hresp,
    analyticsPhase, hread, hana, hcsv]
  rw [if_pos ⟨hne, hdiff⟩]
  simp

/-- A concrete run for C2's witness: distinct identifier files, prior content
`prev`, new identifier `NEW`, healthy analytics endpoint and CSV. -/
def envC2 : Env :=
  { envC1 with
    analyticsResp := fun s => if s = strL "prev" then .ok analyticsExample else .error () }

/-- Witness for C2's amended theorem at the concrete run `envC2`. -/
theorem c2_amended_witness :
    mainModel envC2 = .ok
      ⟨fsWrite (fsWrite envC2.idFiles (schedResolved envC2) (strL "NEW"))
          (mainResolved envC2) (strL "NEW"),
        [⟨envC2.now.day - 1, subjectFor (strL "Bonjour"), analyticsExample⟩],
        !envC2.csvExists⟩
      true (strL "NEW") := by
  exact c2_amended envC2 ⟨101, 8, 0, 0, 0⟩ [⟨strL "Bonjour"⟩]
    [⟨strL "Bougie", strL "Une bougie.", strL "https://shop.example/b", none⟩]
    ⟨strL "Bonjour"⟩ ⟨strL "Bougie", strL "Une bougie.", strL "https://shop.example/b", none⟩
    [] (strL "NEW") (strL "prev") analyticsExample
    (by decide) rfl rfl (by decide) (by decide) rfl rfl
    (by decide) (by decide) (by decide) rfl rfl

/-- A concrete run for C2's counterexample: the previously persisted file
exists but holds only whitespace (`"  "`), which differs from the new
identifier `NEW`. -/
def envC2x : Env :=
  { envC1 with
    idFiles := [(strL "/app/.last_email_id", strL "  ")]
    analyticsResp := fun _ => .ok analyticsExample }

/-- C2 (counterexample to the claim as stated): in `envC2x` the previously
persisted identifier file exists and its content `"  "` differs from the
current identifier `NEW`, yet no analytics are fetched and no row is appended,
because the code additionally requires the stripped content to be non-empty. -/
theorem c2_counterexample :
    fsRead envC2x.idFiles (mainResolved envC2x) = some (strL "  ") ∧
    envC2x.schedResp = .ok (strL "NEW") ∧
    strL "  " ≠ strL "NEW" ∧
    reportedOf (mainModel envC2x) = some false ∧
    rowsOf (mainModel envC2x) = [] := by
  exact ⟨by decide, rfl, by decide, by decide, by decide⟩

/-! ### C7: quote fallback, fatal product pool -/

/-- C7: (1) when the local quote pool file is absent, the pool is exactly the
two hardcoded example quotes and the run proceeds exactly as a run whose pool
file contains them (so the absence itself never fails the run); (2) a missing
or unloadable product pool aborts the run, leaving all persisted state
untouched. -/
theorem quote_fallback_product_fatal :
    (∀ env : Env, env.quotesFile = none →
      loadQuotes env = .ok fallbackQuotes ∧
      mainModel env = mainModel { env with quotesFile := some (.ok fallbackQuotes) }) ∧
    (∀ (env : Env) (pub : LocalDT) (qs : List Quote),
      computePublish env.now env.cfg.send_time = some pub →
      loadQuotes env = .ok qs →
      (env.productsFile = none ∨ env.productsFile = some (.error ())) →
      mainModel env = .failed .productsLoad ⟨env.idFiles, [], false⟩) := by
  constructor
  · intro env h
    have h1 : loadQuotes env = .ok fallbackQuotes := by simp [loadQuotes, h]
    have h2 : loadQuotes { env with quotesFile := some (.ok fallbackQuotes) } =
        .ok fallbackQuotes := rfl
    exact ⟨h1, by simp only [mainModel, h1, h2]; rfl⟩
  · intro env pub qs hpub hq h
    have hprod : loadProducts env = .error () := by
      rcases h with h | h <;> simp [loadProducts, h]
    simp only [mainModel, hpub, hq, hprod]

/-- Witness for C7 at concrete runs: one with an absent quote pool file, one
with an absent product pool file. -/
theorem quote_fallback_product_fatal_witness :
    (loadQuotes { envC1 with quotesFile := none } = .ok fallbackQuotes ∧
      mainModel { envC1 with quotesFile := none } =
        mainModel { envC1 with quotesFile := some (.ok fallbackQuotes) }) ∧
    mainModel { envC1 with productsFile := none } =
      .failed .productsLoad ⟨envC1.idFiles, [], false⟩ := by
  constructor
  · exact quote_fallback_product_fatal.1 { envC1 with quotesFile := none } rfl
  · exact quote_fallback_product_fatal.2 { envC1 with productsFile := none }
      ⟨101, 8, 0, 0, 0⟩ [⟨strL "Bonjour"⟩] (by decide) rfl (Or.inl rfl)

/-! ### C3: the eight placeholder tokens and sequential substitution -/

/-- The eight placeholder tokens, in the order `generate_email_html`
substitutes them (lines 159-168). -/
def tokens : List Str :=
  [strL "\x7b\x7bNAME\x7d\x7d",
   strL "\x7b\x7bQUOTE\x7d\x7d",
   strL "\x7b\x7bPRODUCT_TITLE\x7d\x7d",
   strL "\x7b\x7bPRODUCT_DESC\x7d\x7d",
   strL "\x7b\x7bPRODUCT_IMG\x7d\x7d",
   strL "\x7b\x7bPRODUCT_LINK\x7d\x7d",
   strL "\x7b\x7bTIP_LINK\x7d\x7d",
   strL "\x7b\x7bDATE\x7d\x7d"]

/-- The `i`-th token of the substitution order. -/
def tokAt (i : Nat) : Str := tokens.getD i []

/-- A string containing no brace character. -/
def braceFree (v : Str) : Prop := ∀ c ∈ v, c ≠ '\x7b' ∧ c ≠ '\x7d'

instance (v : Str) : Decidable (braceFree v) := by
  unfold braceFree; infer_instance

/-- `t` is inert for the pattern `p`: no suffix position of `t` starts an
occurrence of `p`, not even one continuing past the end of `t` (the second
conjunct rules out a proper fragment of `p` at `t`'s tail). -/
def inert (p t : Str) : Prop :=
  ∀ k, k < t.length →
    p.isPrefixOf (t.drop k) = false ∧ (t.drop k).isPrefixOf p = false

instance (p t : Str) : Decidable (inert p t) := by
  unfold inert; infer_instance

/-- Inert for all eight tokens. -/
def inertAll (v : Str) : Prop := ∀ i, i < 8 → inert (tokAt i) v

instance (v : Str) : Decidable (inertAll v) := by
  unfold inertAll; infer_instance

/-- Boolean prefix test versus the `<+:` relation. -/
theorem prefixOf_iff (p s : Str) : p.isPrefixOf s = true ↔ p <+: s :=
  List.isPrefixOf_iff_prefix

/-- The fuel in `replaceAllFuel` is irrelevant once it covers the input
length. -/
theorem replaceAllFuel_of_le (p v : Str) :
    ∀ n s, s.length ≤ n → replaceAllFuel n p v s = replaceAll p v s := by
  intro n
  induction n using Nat.strong_induction_on with
  | _ n ih =>
    intro s hs
    cases n with
    | zero =>
      have hnil : s = [] := List.eq_nil_of_length_eq_zero (Nat.le_zero.mp hs)
      subst hnil; rfl
    | succ m =>
      cases s with
      | nil => rfl
      | cons c cs =>
        have hcs : cs.length ≤ m := by simpa using hs
        rw [replaceAll]
        simp only [List.length_cons, replaceAllFuel]
        by_cases hb : (!p.isEmpty && p.isPrefixOf (c :: cs)) = true
        · rw [if_pos hb, if_pos hb]
          have hp : p ≠ [] := by
            intro hpn; subst hpn; simp at hb
          have hd : ((c :: cs).drop p.length).length ≤ cs.length := by
            rw [List.length_drop]
            have : 1 ≤ p.length := List.length_pos.mpr hp
            simp only [List.length_cons]
            omega
          rw [ih m (Nat.lt_succ_self m) _ (le_trans hd hcs),
            ih cs.length (Nat.lt_succ_of_le hcs) _ hd]
        · rw [if_neg hb, if_neg hb]
          rw [ih m (Nat.lt_succ_self m) cs hcs,
            ih cs.length (Nat.lt_succ_of_le hcs) cs (le_refl _)]

/-- `replaceAll` on `[]`. -/
theorem replaceAll_nil (p v : Str) : replaceAll p v [] = [] := rfl

/-- Restriction of inertness to the tail. -/
theorem inert_cons (p : Str) (c : Char) (t : Str) (h : inert p (c :: t)) : inert p t := by
  intro k hk
  have := h (k + 1) (by simpa using Nat.succ_lt_succ hk)
  simpa using this

/-- Scanning an inert block is the identity: replacement distributes past it. -/
theorem replaceAll_append_of_inert (p v t x : Str) (h : inert p t) :
    replaceAll p v (t ++ x) = t ++ replaceAll p v x := by
  induction t with
  | nil => simp
  | cons c t' ih =>
    have h0 := h 0 (by simp)
    simp only [List.drop_zero] at h0
    have hpre : p.isPrefixOf ((c :: t') ++ x) = false := by
      by_contra hcon
      have htrue : p.isPrefixOf ((c :: t') ++ x) = true := by
        cases hb : p.isPrefixOf ((c :: t') ++ x) with
        | true => rfl
        | false => exact absurd hb hcon
      have hp2 : p <+: (c :: t') ++ x := (prefixOf_iff _ _).mp htrue
      have hcase := List.prefix_or_prefix_of_prefix hp2 (List.prefix_append (c :: t') x)
      rcases hcase with h1 | h1
      · have := (prefixOf_iff p (c :: t')).mpr h1
        rw [h0.1] at this
        exact Bool.false_ne_true this
      · have := (prefixOf_iff (c :: t') p).mpr h1
        rw [h0.2] at this
        exact Bool.false_ne_true this
    have hcond : (!p.isEmpty && p.isPrefixOf (c :: (t' ++ x))) = false := by
      rw [show c :: (t' ++ x) = (c :: t') ++ x from rfl, hpre, Bool.and_false]
    calc replaceAll p v ((c :: t') ++ x)
        = replaceAllFuel ((t' ++ x).length + 1) p v (c :: (t' ++ x)) := by
          simp [replaceAll]
      _ = c :: replaceAllFuel (t' ++ x).length p v (t' ++ x) := by
          rw [replaceAllFuel, if_neg (by simp [hcond])]
      _ = c :: (t' ++ replaceAll p v x) := by rw [show replaceAllFuel (t' ++ x).length p v
            (t' ++ x) = replaceAll p v (t' ++ x) from rfl, ih (inert_cons p c t' h)]
      _ = (c :: t') ++ replaceAll p v x := rfl

/-- A pattern occurrence at the head is replaced and scanning resumes after
it. -/
theorem replaceAll_self_append (p v x : Str) (hp : p ≠ []) :
    replaceAll p v (p ++ x) = v ++ replaceAll p v x := by
  cases p with
  | nil => exact absurd rfl hp
  | cons a p' =>
    have hcond : (!(a :: p').isEmpty && (a :: p').isPrefixOf (a :: (p' ++ x))) = true := by
      have hap : (a :: p') <+: a :: (p' ++ x) := List.prefix_append (a :: p') x
      rw [(prefixOf_iff (a :: p') (a :: (p' ++ x))).mpr hap]
      simp [List.isEmpty]
    calc replaceAll (a :: p') v ((a :: p') ++ x)
        = replaceAllFuel ((p' ++ x).length + 1) (a :: p') v (a :: (p' ++ x)) := by
          simp [replaceAll]
      _ = v ++ replaceAllFuel (p' ++ x).length (a :: p') v
            ((a :: (p' ++ x)).drop (a :: p').length) := by
          rw [replaceAllFuel, if_pos hcond]
      _ = v ++ replaceAll (a :: p') v x := by
          have hdrop : (a :: (p' ++ x)).drop (a :: p').length = x := by
            show ((a :: p') ++ x).drop (a :: p').length = x
            exact List.drop_left _ _
          rw [hdrop]
          rw [replaceAllFuel_of_le (a :: p') v (p' ++ x).length x (by simp)]

/-- Appending an inert block to a pattern-free string keeps it pattern-free. -/
theorem not_infix_append_of_inert (p t x : Str) (_hp : p ≠ []) (ht : inert p t)
    (hx : ¬ p <:+: x) : ¬ p <:+: (t ++ x) := by
  induction t with
  | nil => simpa using hx
  | cons c t' ih =>
    intro hin
    rw [List.cons_append, List.infix_cons_iff] at hin
    rcases hin with hpre | hin
    · have h0 := ht 0 (by simp)
      simp only [List.drop_zero] at h0
      have hpre' : p <+: (c :: t') ++ x := by simpa using hpre
      have hcase := List.prefix_or_prefix_of_prefix hpre' (List.prefix_append (c :: t') x)
      rcases hcase with h1 | h1
      · have := (prefixOf_iff p (c :: t')).mpr h1
        rw [h0.1] at this
        exact Bool.false_ne_true this
      · have := (prefixOf_iff (c :: t') p).mpr h1
        rw [h0.2] at this
        exact Bool.false_ne_true this
    · exact ih (inert_cons p c t' ht) hin

/-- The eight tokens all start with `{`, are non-empty, and are pairwise inert
for one another. -/
theorem tokens_facts :
    (∀ i, i < 8 → (tokAt i).head? = some '\x7b' ∧ tokAt i ≠ []) ∧
    (∀ i, i < 8 → ∀ j, j < 8 → i ≠ j → inert (tokAt i) (tokAt j)) := by
  constructor
  · decide
  · decide

/-- A brace-free string is inert for any pattern starting with `{`. -/
theorem inert_of_braceFree (p v : Str) (hhead : p.head? = some '\x7b')
    (hbf : braceFree v) : inert p v := by
  obtain ⟨p', rfl⟩ : ∃ p', p = '\x7b' :: p' := by
    cases p with
    | nil => simp at hhead
    | cons a p' => exact ⟨p', by simpa using congrArg (fun o => o.getD 'z' :: p') hhead⟩
  intro k hk
  have hne : v.drop k ≠ [] := by
    intro hnil
    have := List.length_drop k v
    rw [hnil] at this
    simp at this
    omega
  obtain ⟨b, d', hd⟩ := List.exists_cons_of_ne_nil hne
  have hbv : b ∈ v := List.drop_subset k v (hd ▸ List.mem_cons_self b d')
  have hbne : b ≠ '\x7b' := (hbf b hbv).1
  rw [hd]
  constructor
  · show List.isPrefixOf ('\x7b' :: p') (b :: d') = false
    simp [List.isPrefixOf, Ne.symm hbne]
  · show List.isPrefixOf (b :: d') ('\x7b' :: p') = false
    simp [List.isPrefixOf, hbne]

/-- A brace-free string is inert for every token. -/
theorem inertAll_of_braceFree (v : Str) (h : braceFree v) : inertAll v :=
  fun i hi => inert_of_braceFree (tokAt i) v (tokens_facts.1 i hi).1 h

/-- Brace-freeness is closed under concatenation. -/
theorem braceFree_append (a b : Str) (ha : braceFree a) (hb : braceFree b) :
    braceFree (a ++ b) := by
  intro c hc
  rcases List.mem_append.mp hc with h | h
  · exact ha c h
  · exact hb c h

/-- The instrumented link of a brace-free URL under a brace-free configuration
is brace-free. -/
theorem braceFree_append_utm (url : Str) (config : Config)
    (hu : braceFree url) (hs : braceFree config.utm_source)
    (hm : braceFree config.utm_medium) (hc : braceFree config.utm_campaign) :
    braceFree (append_utm url config) := by
  have hdelim : braceFree (if url.contains '?' then strL "&" else strL "?") := by
    by_cases h : url.contains '?' = true
    · rw [if_pos h]; decide
    · rw [if_neg h]; decide
  have hparams : braceFree (strL "utm_source=" ++ config.utm_source
      ++ strL "&utm_medium=" ++ config.utm_medium
      ++ strL "&utm_campaign=" ++ config.utm_campaign) :=
    braceFree_append _ _ (braceFree_append _ _ (braceFree_append _ _
      (braceFree_append _ _ (braceFree_append _ _ (by decide) hs) (by decide)) hm)
      (by decide)) hc
  exact braceFree_append _ _ (braceFree_append _ _ hu hdelim) hparams

/-- The resolved image URL of a brace-free image field under a brace-free site
URL is brace-free. -/
theorem braceFree_image_url (config : Config) (img : Option Str)
    (hsite : braceFree config.site_url)
    (himg : ∀ s, img = some s → braceFree s) :
    braceFree (image_url config img) := by
  unfold image_url
  cases img with
  | none =>
    intro c hc
    simp at hc
  | some s =>
    have hs := himg s rfl
    simp only [Option.getD_some]
    split
    · refine braceFree_append _ _ hsite ?_
      intro c hc
      rcases List.mem_cons.mp hc with rfl | hc
      · exact ⟨by decide, by decide⟩
      · exact hs c ((List.dropWhile_sublist _).subset hc)
    · exact hs

/-- A template shape: alternating literal fragments and placeholder tokens. -/
inductive Seg where
  | lit : Str → Seg
  | tk : Nat → Seg
deriving DecidableEq

/-- The template text denoted by a segment list. -/
def flatten : List Seg → Str
  | [] => []
  | .lit a :: r => a ++ flatten r
  | .tk j :: r => tokAt j ++ flatten r

/-- Substituting value `v` for token `i` at the segment level. -/
def substSeg (i : Nat) (v : Str) : List Seg → List Seg :=
  List.map fun s =>
    match s with
    | .tk j => if j = i then .lit v else .tk j
    | .lit a => .lit a

/-- One `str.replace` pass over a flattened segment list is exactly the
segment-level substitution, provided the literals are inert for the token
being substituted and the remaining token indices are in range. -/
theorem replaceAll_flatten (i : Nat) (hi : i < 8) (v : Str) (segs : List Seg)
    (hlits : ∀ a, Seg.lit a ∈ segs → inert (tokAt i) a)
    (htks : ∀ j, Seg.tk j ∈ segs → j < 8) :
    replaceAll (tokAt i) v (flatten segs) = flatten (substSeg i v segs) := by
  induction segs with
  | nil => rfl
  | cons s r ih =>
    have hlits' : ∀ a, Seg.lit a ∈ r → inert (tokAt i) a :=
      fun a ha => hlits a (List.mem_cons_of_mem _ ha)
    have htks' : ∀ j, Seg.tk j ∈ r → j < 8 :=
      fun j hj => htks j (List.mem_cons_of_mem _ hj)
    cases s with
    | lit a =>
      show replaceAll (tokAt i) v (a ++ flatten r) = flatten (substSeg i v (.lit a :: r))
      rw [replaceAll_append_of_inert _ _ _ _ (hlits a (List.mem_cons_self _ _)),
        ih hlits' htks']
      rfl
    | tk j =>
      have hj : j < 8 := htks j (List.mem_cons_self _ _)
      by_cases hij : j = i
      · subst hij
        show replaceAll (tokAt j) v (tokAt j ++ flatten r) = flatten (substSeg j v (.tk j :: r))
        rw [replaceAll_self_append _ _ _ (tokens_facts.1 j hj).2, ih hlits' htks']
        simp [substSeg, flatten]
      · show replaceAll (tokAt i) v (tokAt j ++ flatten r) = flatten (substSeg i v (.tk j :: r))
        rw [replaceAll_append_of_inert _ _ _ _
          (tokens_facts.2 i hi j hj (fun h => hij h.symm)), ih hlits' htks']
        simp [substSeg, flatten, hij]

/-- Invariant after substituting tokens `0 .. done-1`: every literal is inert
for all tokens, and every remaining token index is in `done .. 7`. -/
def GoodAfter (done : Nat) (segs : List Seg) : Prop :=
  (∀ a, Seg.lit a ∈ segs → inertAll a) ∧ (∀ j, Seg.tk j ∈ segs → j < 8 ∧ done ≤ j)

/-- The invariant advances across one substitution step with an inert value. -/
theorem goodAfter_step (i : Nat) (v : Str) (segs : List Seg)
    (h : GoodAfter i segs) (hv : inertAll v) :
    GoodAfter (i + 1) (substSeg i v segs) := by
  constructor
  · intro a ha
    rcases List.mem_map.mp ha with ⟨s, hs, heq⟩
    cases s with
    | lit b =>
      have hb : b = a := by simpa using heq
      exact hb ▸ h.1 b hs
    | tk j =>
      by_cases hij : j = i
      · have hva : v = a := by simpa [hij] using heq
        exact hva ▸ hv
      · simp [hij] at heq
  · intro j hj
    rcases List.mem_map.mp hj with ⟨s, hs, heq⟩
    cases s with
    | lit b => simp at heq
    | tk j' =>
      by_cases hij : j' = i
      · simp [hij] at heq
      · have hjj : j' = j := by simpa [hij] using heq
        subst hjj
        have := h.2 j' hs
        omega

/-- A flattened list of all-literal, all-inert segments contains no token. -/
theorem not_tok_infix_flatten (i : Nat) (hi : i < 8) :
    ∀ segs : List Seg, (∀ s ∈ segs, ∃ a, s = Seg.lit a ∧ inertAll a) →
      ¬ tokAt i <:+: flatten segs := by
  intro segs
  induction segs with
  | nil =>
    intro _ h
    exact (tokens_facts.1 i hi).2 (List.infix_nil.mp h)
  | cons s r ih =>
    intro hall
    obtain ⟨a, rfl, ha⟩ := hall s (List.mem_cons_self _ _)
    show ¬ tokAt i <:+: (a ++ flatten r)
    exact not_infix_append_of_inert _ _ _ (tokens_facts.1 i hi).2 (ha i hi)
      (ih fun s hs => hall s (List.mem_cons_of_mem _ hs))

/-- After all eight substitution steps every segment is an inert literal. -/
theorem goodAfter_eight (segs : List Seg) (h : GoodAfter 8 segs) :
    ∀ s ∈ segs, ∃ a, s = Seg.lit a ∧ inertAll a := by
  intro s hs
  cases s with
  | lit a => exact ⟨a, rfl, h.1 a hs⟩
  | tk j =>
    have := h.2 j hs
    omega

/-- C3 (amended): when the template is a concatenation of placeholder tokens
and literal fragments that are inert for all eight tokens (any brace-free
fragment is), the recipient value is inert (the provider-side
`{{ subscriber.name }}` literal is, as is any brace-free name), and the quote,
product fields, UTM fields, tip link, site URL and date are brace-free, the
rendered HTML contains no occurrence of any of the eight placeholder tokens:
each token is substituted exactly at its fixed position in the order NAME,
QUOTE, PRODUCT_TITLE, PRODUCT_DESC, PRODUCT_IMG, PRODUCT_LINK, TIP_LINK,
DATE.  (Without the inertness restrictions the property is false: a
substituted value is rescanned by the later passes — see the
counterexample.) -/
theorem c3_amended (segs : List Seg) (recipient dateStr : Str) (quote : Quote)
    (product : Product) (config : Config)
    (hsegs : GoodAfter 0 segs)
    (hrec : inertAll recipient)
    (hq : braceFree quote.text)
    (hti : braceFree product.title)
    (hde : braceFree product.description)
    (hli : braceFree product.link)
    (him : ∀ s, product.image = some s → braceFree s)
    (hsite : braceFree config.site_url)
    (hus : braceFree config.utm_source)
    (hum : braceFree config.utm_medium)
    (huc : braceFree config.utm_campaign)
    (htip : braceFree config.tip_link)
    (hdate : braceFree dateStr) :
    ∀ i, i < 8 →
      ¬ tokAt i <:+:
        generate_email_html recipient quote product config (flatten segs) dateStr := by
  have hv4 : inertAll (image_url config product.image) :=
    inertAll_of_braceFree _ (braceFree_image_url config product.image hsite him)
  have hv5 : inertAll (append_utm product.link config) :=
    inertAll_of_braceFree _ (braceFree_append_utm _ _ hli hus hum huc)
  have hv6 : inertAll (if config.tip_link ≠ [] then append_utm config.tip_link config
      else strL "#") := by
    split
    · exact inertAll_of_braceFree _ (braceFree_append_utm _ _ htip hus hum huc)
    · exact inertAll_of_braceFree _ (by decide)
  have g1 := goodAfter_step 0 recipient segs hsegs hrec
  have g2 := goodAfter_step 1 quote.text _ g1 (inertAll_of_braceFree _ hq)
  have g3 := goodAfter_step 2 product.title _ g2 (inertAll_of_braceFree _ hti)
  have g4 := goodAfter_step 3 product.description _ g3 (inertAll_of_braceFree _ hde)
  have g5 := goodAfter_step 4 (image_url config product.image) _ g4 hv4
  have g6 := goodAfter_step 5 (append_utm product.link config) _ g5 hv5
  have g7 := goodAfter_step 6 _ _ g6 hv6
  have g8 := goodAfter_step 7 dateStr _ g7 (inertAll_of_braceFree _ hdate)
  have e0 := replaceAll_flatten 0 (by decide) recipient segs
    (fun a ha => hsegs.1 a ha 0 (by decide)) (fun j hj => (hsegs.2 j hj).1)
  have e1 := replaceAll_flatten 1 (by decide) quote.text _
    (fun a ha => g1.1 a ha 1 (by decide)) (fun j hj => (g1.2 j hj).1)
  have e2 := replaceAll_flatten 2 (by decide) product.title _
    (fun a ha => g2.1 a ha 2 (by decide)) (fun j hj => (g2.2 j hj).1)
  have e3 := replaceAll_flatten 3 (by decide) product.description _
    (fun a ha => g3.1 a ha 3 (by decide)) (fun j hj => (g3.2 j hj).1)
  have e4 := replaceAll_flatten 4 (by decide) (image_url config product.image) _
    (fun a ha => g4.1 a ha 4 (by decide)) (fun j hj => (g4.2 j hj).1)
  have e5 := replaceAll_flatten 5 (by decide) (append_utm product.link config) _
    (fun a ha => g5.1 a ha 5 (by decide)) (fun j hj => (g5.2 j hj).1)
  have e6 := replaceAll_flatten 6 (by decide)
    (if config.tip_link ≠ [] then append_utm config.tip_link config else strL "#") _
    (fun a ha => g6.1 a ha 6 (by decide)) (fun j hj => (g6.2 j hj).1)
  have e7 := replaceAll_flatten 7 (by decide) dateStr _
    (fun a ha => g7.1 a ha 7 (by decide)) (fun j hj => (g7.2 j hj).1)
  intro i hi
  have hrender :
      generate_email_html recipient quote product config (flatten segs) dateStr =
        flatten (substSeg 7 dateStr (substSeg 6
          (if config.tip_link ≠ [] then append_utm config.tip_link config else strL "#")
          (substSeg 5 (append_utm product.link config)
            (substSeg 4 (image_url config product.image)
              (substSeg 3 product.description
                (substSeg 2 product.title
                  (substSeg 1 quote.text
                    (substSeg 0 recipient segs)))))))) := by
    simp only [generate_email_html]
    rw [show strL "\x7b\x7bNAME\x7d\x7d" = tokAt 0 from rfl,
      show strL "\x7b\x7bQUOTE\x7d\x7d" = tokAt 1 from rfl,
      show strL "\x7b\x7bPRODUCT_TITLE\x7d\x7d" = tokAt 2 from rfl,
      show strL "\x7b\x7bPRODUCT_DESC\x7d\x7d" = tokAt 3 from rfl,
      show strL "\x7b\x7bPRODUCT_IMG\x7d\x7d" = tokAt 4 from rfl,
      show strL "\x7b\x7bPRODUCT_LINK\x7d\x7d" = tokAt 5 from rfl,
      show strL "\x7b\x7bTIP_LINK\x7d\x7d" = tokAt 6 from rfl,
      show strL "\x7b\x7bDATE\x7d\x7d" = tokAt 7 from rfl,
      e0, e1, e2, e3, e4, e5, e6, e7]
  rw [hrender]
  exact not_tok_infix_flatten i hi _ (goodAfter_eight _ g8)

/-- Product for C3's counterexample: the description itself is the `QUOTE`
placeholder token. -/
def prodC3 : Product :=
  ⟨strL "ZEN", strL "\x7b\x7bQUOTE\x7d\x7d", strL "https://shop.example/b", none⟩

/-- C3 (counterexample to the claim as stated): with template
`{{QUOTE}} {{PRODUCT_DESC}}`, quote text `{{PRODUCT_TITLE}}` and product
description `{{QUOTE}}`, the output is `ZEN {{QUOTE}}`: the substituted quote
value was itself reinterpreted and replaced by a later substitution (no
`{{PRODUCT_TITLE}}` remains — it became `ZEN`), and the output contains the
unresolved token `{{QUOTE}}`, which is not the recipient-name token's
provider-side replacement. -/
theorem c3_counterexample :
    generate_email_html subscriberName ⟨strL "\x7b\x7bPRODUCT_TITLE\x7d\x7d"⟩ prodC3
        cfgUtmExample (strL "\x7b\x7bQUOTE\x7d\x7d \x7b\x7bPRODUCT_DESC\x7d\x7d")
        (strL "01/01/2024") = strL "ZEN \x7b\x7bQUOTE\x7d\x7d" ∧
    tokAt 1 <:+: strL "ZEN \x7b\x7bQUOTE\x7d\x7d" ∧
    ¬ tokAt 2 <:+: strL "ZEN \x7b\x7bQUOTE\x7d\x7d" := by
  refine ⟨by decide, by decide, by decide⟩

/-- Template segments for C3's witness: literal text around one `QUOTE`
token. -/
def segsW : List Seg := [.lit (strL "<p>"), .tk 1, .lit (strL "</p>")]

/-- Witness for C3's amended theorem at a concrete template, quote, product
and configuration (with the provider-side recipient literal), at the `QUOTE`
token. -/
theorem c3_amended_witness :
    ¬ tokAt 1 <:+:
      generate_email_html subscriberName ⟨strL "Bonjour"⟩
        ⟨strL "Bougie", strL "Une bougie.", strL "https://shop.example/b",
          some (strL "images/cat.png")⟩
        cfgUtmExample (flatten segsW) (strL "01/01/2024") := by
  refine c3_amended segsW subscriberName (strL "01/01/2024") ⟨strL "Bonjour"⟩
    ⟨strL "Bougie", strL "Une bougie.", strL "https://shop.example/b",
      some (strL "images/cat.png")⟩ cfgUtmExample
    ⟨?_, ?_⟩ (by decide) (by decide) (by decide) (by decide) (by decide)
    ?_ (by decide) (by decide) (by decide) (by decide) (by decide) (by decide)
    1 (by decide)
  · intro a ha
    simp only [segsW, List.mem_cons, List.not_mem_nil, or_false] at ha
    rcases ha with ha | ha | ha
    · rw [show a = strL "<p>" by simpa using ha]; decide
    · simp at ha
    · rw [show a = strL "</p>" by simpa using ha]; decide
  · intro j hj
    simp only [segsW, List.mem_cons, List.not_mem_nil, or_false] at hj
    rcases hj with hj | hj | hj
    · simp at hj
    · rw [show j = 1 by simpa using hj]
      exact ⟨by decide, by decide⟩
    · simp at hj
  · intro s hs
    rw [← Option.some.inj hs]
    decide
